import Mathlib

/-!
Shallow embedding of the ChatScribe core parsing engine:
`auto_generate_pattern` (src/models/auto_generate_pattern.py) and
`parse_chat_with_pattern` (src/models/parse_chat_with_pattern.py).

The Python code uses `re` regular expressions.  The eight regexes that occur
in the candidate-format table use only a small fragment of regex syntax:
literal characters, the classes `.` `\s` `\d` `[^c]`, greedy and lazy
quantifiers applied to a single class, capture groups around a single
quantified class, and the `$` end anchor.  We embed that fragment with an
explicit token list per regex and a backtracking matcher whose alternative
order (greedy: longest first, lazy: shortest first) reproduces Python's
leftmost-first matching discipline.  `re.match` anchors at the start of the
string and, absent `$`, accepts any matching prefix.
-/

namespace ChatScribe

/-- Character classes occurring in the embedded regexes.
`anyc` is `.` (any character except newline), `wsc` is `\s` (ASCII whitespace,
the only kind exercised here), `digitc` is `\d`, `notc c` is `[^c]`. -/
inductive CClass where
  | anyc
  | wsc
  | digitc
  | notc (c : Char)
deriving DecidableEq, Repr

/-- Python whitespace characters (`str.strip` / `\s`), ASCII range. -/
def pyWs (c : Char) : Bool :=
  c == ' ' || c == '\t' || c == '\n' || c == '\r' || c == Char.ofNat 11 || c == Char.ofNat 12

def CClass.memc : CClass → Char → Bool
  | CClass.anyc, c => !(c == '\n')
  | CClass.wsc, c => pyWs c
  | CClass.digitc, c => '0' ≤ c && c ≤ '9'
  | CClass.notc d, c => !(c == d)

/-- One token of an embedded regex: a literal character, a quantified
character class (`lo` to `hi` repetitions, `none` meaning unbounded, `lz` for
lazy, `cap` when the token is wrapped in a capture group), or the `$` end
anchor. -/
inductive Tok where
  | lit (c : Char)
  | rep (cc : CClass) (lo : Nat) (hi : Option Nat) (lz : Bool) (cap : Bool)
  | eos
deriving DecidableEq, Repr

/-- Length of the longest input string matched by the class (the chars a
class-quantifier can consume form a maximal prefix of the remaining input). -/
def maxTake (cc : CClass) : List Char → Nat
  | [] => 0
  | c :: rest => if CClass.memc cc c then maxTake cc rest + 1 else 0

/-- Candidate repetition counts between `lo` and `hi` in the order Python's
backtracking tries them: ascending for a lazy quantifier, descending for a
greedy one. -/
def repCands (lo hi : Nat) (lz : Bool) : List Nat :=
  let cands := List.range' lo (hi + 1 - lo)
  if lz then cands else cands.reverse

/-- Backtracking matcher.  Returns the captured group strings (in group
order) of the first alternative, in Python's preference order, that lets the
whole token list match, or `none`.  The `fuel` argument only serves to make
the recursion structural (hence kernel-reducible); every recursive call
shortens the token list, so any fuel at least `toks.length` is exact. -/
def matchToksF : Nat → List Tok → List Char → Option (List String)
  | _, [], _ => some []
  | 0, _ :: _, _ => none
  | fuel + 1, Tok.eos :: ts, cs => if cs = [] then matchToksF fuel ts cs else none
  | fuel + 1, Tok.lit c :: ts, cs =>
    match cs with
    | [] => none
    | c2 :: rest => if c2 = c then matchToksF fuel ts rest else none
  | fuel + 1, Tok.rep cc lo hi lz cap :: ts, cs =>
    let m := maxTake cc cs
    let hi2 := min (hi.getD m) m
    List.findSome?
      (fun k =>
        Option.map
          (fun gs => if cap then String.mk (List.take k cs) :: gs else gs)
          (matchToksF fuel ts (List.drop k cs)))
      (repCands lo hi2 lz)

/-- Run `re.match` of an embedded regex against a string. -/
def matchToks (toks : List Tok) (s : String) : Option (List String) :=
  matchToksF (toks.length + 1) toks s.data

/-- Number of capture groups of an embedded regex. -/
def numCaps : List Tok → Nat
  | [] => 0
  | Tok.rep _ _ _ _ true :: ts => numCaps ts + 1
  | _ :: ts => numCaps ts

/-- Python `str.strip()`: drop leading and trailing whitespace. -/
def pstrip (s : String) : String :=
  String.mk (((s.data.dropWhile pyWs).reverse.dropWhile pyWs).reverse)

/-! ### Token shorthands for the regex pieces appearing in the table -/

/-- Token for `\s*`. -/
def ws0 : Tok := Tok.rep CClass.wsc 0 none false false

/-- Token for `.+?` or `(.+?)`. -/
def anyLazy1 (cap : Bool) : Tok := Tok.rep CClass.anyc 1 none true cap

/-- Token for `.*` or `(.*)`. -/
def anyStar (cap : Bool) : Tok := Tok.rep CClass.anyc 0 none false cap

/-- Token for `[^c]+` or `([^c]+)`. -/
def plusNot (c : Char) (cap : Bool) : Tok := Tok.rep (CClass.notc c) 1 none false cap

/-- Token for `\d{lo,hi}`. -/
def digits (lo hi : Nat) : Tok := Tok.rep CClass.digitc lo (some hi) false false

/-! ### The candidate-format table (`patterns_to_try` in the source) -/

/-- One entry of the `patterns_to_try` dict: name, shape-test regex, capture
regex, column names. -/
structure CandidateFormat where
  name : String
  test : List Tok
  capture : List Tok
  cols : List String
deriving DecidableEq, Repr

/-- Format 1, `[Date, Time] User: Message`.
Test `^\x5b.+?,\s*.+?\x5d\s*[^:]+:\s*.*`,
capture `^\x5b([^,]+),\s*(.+?)\x5d\s*([^:]+):\s*(.*)$`. -/
def cand_bracket_datetime : CandidateFormat :=
  { name := "bracket_datetime_user"
    test := [Tok.lit '[', anyLazy1 false, Tok.lit ',', ws0, anyLazy1 false, Tok.lit ']',
             ws0, plusNot ':' false, Tok.lit ':', ws0, anyStar false]
    capture := [Tok.lit '[', plusNot ',' true, Tok.lit ',', ws0, anyLazy1 true, Tok.lit ']',
                ws0, plusNot ':' true, Tok.lit ':', ws0, anyStar true, Tok.eos]
    cols := ["Date", "Time", "User", "Message"] }

/-- Format 2, `Date, Time - User: Message`.
Test `^\d{1,2}/\d{1,2}/\d{2,4},\s*\d{1,2}:\d{1,2}\s*-\s*[^:]+:\s*.*`,
capture `^([^,]+),\s*([^-]+)\s*-\s*([^:]+):\s*(.*)$`. -/
def cand_date_time_dash : CandidateFormat :=
  { name := "date_time_dash_user"
    test := [digits 1 2, Tok.lit '/', digits 1 2, Tok.lit '/', digits 2 4, Tok.lit ',',
             ws0, digits 1 2, Tok.lit ':', digits 1 2, ws0, Tok.lit '-', ws0,
             plusNot ':' false, Tok.lit ':', ws0, anyStar false]
    capture := [plusNot ',' true, Tok.lit ',', ws0, plusNot '-' true, ws0, Tok.lit '-',
                ws0, plusNot ':' true, Tok.lit ':', ws0, anyStar true, Tok.eos]
    cols := ["Date", "Time", "User", "Message"] }

/-- Format 3, `[Timestamp] User: Message`.
Test `^\x5b.+?\x5d\s*[^:]+:\s*.*`,
capture `^\x5b(.+?)\x5d\s*([^:]+):\s*(.*)$`. -/
def cand_bracket_timestamp : CandidateFormat :=
  { name := "bracket_timestamp_user"
    test := [Tok.lit '[', anyLazy1 false, Tok.lit ']', ws0, plusNot ':' false,
             Tok.lit ':', ws0, anyStar false]
    capture := [Tok.lit '[', anyLazy1 true, Tok.lit ']', ws0, plusNot ':' true,
                Tok.lit ':', ws0, anyStar true, Tok.eos]
    cols := ["Timestamp", "User", "Message"] }

/-- Format 4, `Timestamp - User: Message`.
Test `^.+?\s*-\s*[^:]+:\s*.*`,
capture `^(.+?)\s*-\s*([^:]+):\s*(.*)$`. -/
def cand_timestamp_dash : CandidateFormat :=
  { name := "timestamp_dash_user"
    test := [anyLazy1 false, ws0, Tok.lit '-', ws0, plusNot ':' false,
             Tok.lit ':', ws0, anyStar false]
    capture := [anyLazy1 true, ws0, Tok.lit '-', ws0, plusNot ':' true,
                Tok.lit ':', ws0, anyStar true, Tok.eos]
    cols := ["Timestamp", "User", "Message"] }

/-- The fixed table, in the (insertion-ordered) iteration order of the
Python dict. -/
def patterns_to_try : List CandidateFormat :=
  [cand_bracket_datetime, cand_date_time_dash, cand_bracket_timestamp, cand_timestamp_dash]

/-! ### Format inference (`auto_generate_pattern`) -/

/-- The sampling loop: `for i in range(lines_to_sample): line =
f.readline().strip(); if line: sample_lines.append(line)`.  Past end of
file `readline` returns the empty string, which strips to empty and is not
appended. -/
def readSample : List String → Nat → List String
  | _, 0 => []
  | [], _ + 1 => []
  | l :: rest, n + 1 =>
    let s := pstrip l
    if s = "" then readSample rest n else s :: readSample rest n

/-- The candidate loop of `auto_generate_pattern`: try each table entry in
order; if its test regex matches the first sample line, count how many
sample lines its capture regex matches and accept when the ratio exceeds
0.9.  The float comparison `match_count / len(sample_lines) > 0.9` is
modelled exactly as `match_count * 10 > len * 9` (for the sample sizes the
code can produce the float comparison agrees with the rational one). -/
def inferLoop : List CandidateFormat → List String → Option (List Tok) × Option (List String)
  | [], _ => (none, none)
  | c :: rest, sample_lines =>
    if (matchToks c.test (sample_lines.headD "")).isSome then
      let match_count := (sample_lines.filter fun l => (matchToks c.capture l).isSome).length
      if match_count * 10 > sample_lines.length * 9 then
        (some c.capture, some c.cols)
      else inferLoop rest sample_lines
    else inferLoop rest sample_lines

/-- Embedding of `auto_generate_pattern(file_path, lines_to_sample)`.  The file input is
modelled as `none` when opening/reading fails (`FileNotFoundError` or any
other read exception: both handlers print and `return None, None`), and as
`some lines` (the file's physical lines) otherwise.  The Python function's
prints are side effects with no influence on the returned value and are not
modelled. -/
def auto_generate_pattern (input : Option (List String)) (lines_to_sample : Nat) :
    Option (List Tok) × Option (List String) :=
  match input with
  | none => (none, none)
  | some lines =>
    let sample_lines := readSample lines lines_to_sample
    if sample_lines = [] then (none, none)
    else inferLoop patterns_to_try sample_lines

/-! ### Record extraction (`parse_chat_with_pattern`) -/

/-- Python `dict` insertion with `d[k] = v` semantics on an insertion-ordered
association list: overwrite in place if the key is present, append otherwise. -/
def dictUpd (d : List (String × String)) (k v : String) : List (String × String) :=
  if d.any fun p => p.1 = k then d.map fun p => if p.1 = k then (k, v) else p
  else d ++ [(k, v)]

/-- Model of `dict(zip(columns, groups))`: `zip` truncates at the shorter list, `dict`
keeps insertion order. -/
def dictZip (ks vs : List String) : List (String × String) :=
  List.foldl (fun d p => dictUpd d p.1 p.2) [] (ks.zip vs)

/-- One record: `dict(zip(columns, match.groups()))` followed by the loop
stripping every (string) value in place. -/
def mkRecord (columns : List String) (groups : List String) : List (String × String) :=
  (dictZip columns groups).map fun p => (p.1, pstrip p.2)

/-- The extraction loop body of `parse_chat_with_pattern`: strip each line,
skip it if empty, apply the pattern, emit a record on a match and nothing
otherwise, preserving line order. -/
def extractLines (pattern : String → Option (List String)) (columns : List String) :
    List String → List (List (String × String))
  | [] => []
  | l :: rest =>
    let s := pstrip l
    if s = "" then extractLines pattern columns rest
    else
      match pattern s with
      | some gs => mkRecord columns gs :: extractLines pattern columns rest
      | none => extractLines pattern columns rest

/-- Outcome of reading the input file inside `parse_chat_with_pattern`:
the open fails (`FileNotFoundError`), the whole file is read, or an
unexpected exception interrupts the line iteration after `lines` were
yielded. -/
inductive ReadOutcome where
  | openFail
  | ok (lines : List String)
  | failAfter (lines : List String)
deriving DecidableEq, Repr

/-- Embedding of `parse_chat_with_pattern(file_path, pattern, columns)`.  `parsed_data`
is accumulated inside the `try` block; the `FileNotFoundError` handler
prints and falls through to `return parsed_data` while it is still empty,
and the generic `Exception` handler prints and falls through to
`return parsed_data` holding the records of the lines already iterated. -/
def parse_chat_with_pattern (input : ReadOutcome) (pattern : String → Option (List String))
    (columns : List String) : List (List (String × String)) :=
  match input with
  | ReadOutcome.openFail => []
  | ReadOutcome.ok lines => extractLines pattern columns lines
  | ReadOutcome.failAfter lines => extractLines pattern columns lines

/-- Acceptance condition of one candidate against a sample, exactly the
two tests of the loop body of `inferLoop`. -/
def acceptsB (c : CandidateFormat) (sample_lines : List String) : Bool :=
  (matchToks c.test (sample_lines.headD "")).isSome &&
    decide ((sample_lines.filter fun l => (matchToks c.capture l).isSome).length * 10 >
      sample_lines.length * 9)

/-- A 20-line chat export in the `10/5/23, 14:02 - Alice: Hello there`
layout, with varying users and messages. -/
def chat_file_20 : List String :=
  ["10/5/23, 14:02 - Alice: Hello there",
   "10/5/23, 14:03 - Bob: Hi Alice",
   "10/5/23, 14:04 - Alice: How are you",
   "10/5/23, 14:05 - Bob: Fine thanks",
   "10/5/23, 14:06 - Carol: Hey all",
   "10/5/23, 14:07 - Alice: Hey Carol",
   "10/5/23, 14:08 - Dave: Good morning",
   "10/5/23, 14:09 - Bob: Morning Dave",
   "10/5/23, 14:10 - Carol: What is up",
   "10/5/23, 14:11 - Alice: Not much",
   "10/5/23, 14:12 - Dave: Same here",
   "10/5/23, 14:13 - Bob: Lunch later",
   "10/5/23, 14:14 - Carol: Sure",
   "10/5/23, 14:15 - Alice: Count me in",
   "10/5/23, 14:16 - Dave: Me too",
   "10/5/23, 14:17 - Bob: Noon then",
   "10/5/23, 14:18 - Carol: Works for me",
   "10/5/23, 14:19 - Alice: See you",
   "10/5/23, 14:20 - Dave: Bye",
   "10/5/23, 14:21 - Bob: Bye all"]

/-! ### Helper lemmas -/

theorem findSome?_some_mem {α β : Type} {f : α → Option β} {b : β} :
    ∀ {l : List α}, List.findSome? f l = some b → ∃ a, a ∈ l ∧ f a = some b := by
  intro l
  induction l with
  | nil => intro h; simp [List.findSome?] at h
  | cons x xs ih =>
    intro h
    cases hx : f x with
    | some v =>
      refine ⟨x, List.mem_cons_self x xs, ?_⟩
      rw [hx]
      rw [List.findSome?_cons_of_isSome xs (by rw [hx]; rfl), hx] at h
      exact h
    | none =>
      rw [List.findSome?_cons_of_isNone xs (by rw [hx]; rfl)] at h
      obtain ⟨a, ha, hf⟩ := ih h
      exact ⟨a, List.mem_cons_of_mem x ha, hf⟩

theorem matchToksF_length :
    ∀ (fuel : Nat) (toks : List Tok) (cs : List Char) (gs : List String),
      matchToksF fuel toks cs = some gs → gs.length = numCaps toks := by
  intro fuel
  induction fuel with
  | zero =>
    intro toks cs gs h
    cases toks with
    | nil =>
      simp only [matchToksF, Option.some.injEq] at h
      subst h; rfl
    | cons t ts => simp [matchToksF] at h
  | succ fuel ih =>
    intro toks cs gs h
    cases toks with
    | nil =>
      simp only [matchToksF, Option.some.injEq] at h
      subst h; rfl
    | cons t ts =>
      cases t with
      | eos =>
        simp only [matchToksF] at h
        by_cases hcs : cs = []
        · rw [if_pos hcs] at h
          simpa [numCaps] using ih ts cs gs h
        · rw [if_neg hcs] at h
          exact absurd h (by simp)
      | lit c =>
        simp only [matchToksF] at h
        split at h
        · exact absurd h (by simp)
        · split at h
          · simpa [numCaps] using ih ts _ gs h
          · exact absurd h (by simp)
      | rep cc lo hi lz cap =>
        simp only [matchToksF] at h
        obtain ⟨k, _, hk⟩ := findSome?_some_mem h
        cases hmt : matchToksF fuel ts (List.drop k cs) with
        | none => rw [hmt] at hk; simp at hk
        | some gs0 =>
          rw [hmt] at hk
          simp only [Option.map_some', Option.some.injEq] at hk
          have hlen := ih ts (List.drop k cs) gs0 hmt
          cases cap with
          | false =>
            simp only [if_neg (by simp : ¬False), Bool.false_eq_true, if_false] at hk
            subst hk
            simpa [numCaps] using hlen
          | true =>
            simp only [if_pos rfl] at hk
            subst hk
            simp [numCaps, hlen]

theorem matchToks_length {toks : List Tok} {s : String} {gs : List String}
    (h : matchToks toks s = some gs) : gs.length = numCaps toks :=
  matchToksF_length _ _ _ _ h

theorem readSample_nil : ∀ n, readSample [] n = [] := by
  intro n; cases n <;> rfl

theorem readSample_eq (lines : List String) :
    ∀ n, readSample lines n = (((lines.take n).map pstrip).filter fun s => !(s == "")) := by
  induction lines with
  | nil => intro n; cases n <;> rfl
  | cons l rest ih =>
    intro n
    cases n with
    | zero => rfl
    | succ n =>
      simp only [readSample, List.take_succ_cons, List.map_cons, List.filter_cons]
      by_cases h : pstrip l = ""
      · rw [if_pos h, ih n]
        simp [h]
      · rw [if_neg h, ih n]
        simp [h]

theorem inferLoop_accept {c : CandidateFormat} {rest : List CandidateFormat}
    {sample_lines : List String} (h : acceptsB c sample_lines = true) :
    inferLoop (c :: rest) sample_lines = (some c.capture, some c.cols) := by
  obtain ⟨h1, h2⟩ := Bool.and_eq_true_iff.mp h
  have h2' := of_decide_eq_true h2
  simp only [inferLoop, h1, if_true, if_pos h2']

theorem inferLoop_skip {c : CandidateFormat} {rest : List CandidateFormat}
    {sample_lines : List String} (h : acceptsB c sample_lines = false) :
    inferLoop (c :: rest) sample_lines = inferLoop rest sample_lines := by
  by_cases h1 : (matchToks c.test (sample_lines.headD "")).isSome = true
  · have h2 : ¬ (sample_lines.filter fun l =>
        (matchToks c.capture l).isSome).length * 10 > sample_lines.length * 9 := by
      rcases Bool.and_eq_false_iff.mp h with ha | hb
      · rw [h1] at ha; exact absurd ha (by simp)
      · exact of_decide_eq_false hb
    simp only [inferLoop, h1, if_true, if_neg h2]
  · simp only [inferLoop, if_neg h1]

theorem inferLoop_none_or_pair (cands : List CandidateFormat) (sample_lines : List String) :
    inferLoop cands sample_lines = (none, none) ∨
      ∃ p cols, inferLoop cands sample_lines = (some p, some cols) := by
  induction cands with
  | nil => left; rfl
  | cons c rest ih =>
    by_cases hacc : acceptsB c sample_lines = true
    · right
      exact ⟨c.capture, c.cols, inferLoop_accept hacc⟩
    · rw [inferLoop_skip (Bool.not_eq_true _ ▸ hacc)]
      exact ih

theorem dictUpd_fresh {d : List (String × String)} {k v : String}
    (h : ∀ p ∈ d, ¬ p.1 = k) : dictUpd d k v = d ++ [(k, v)] := by
  unfold dictUpd
  rw [if_neg]
  simp only [List.any_eq_true, decide_eq_true_eq, not_exists]
  intro p
  by_cases hp : p ∈ d
  · simp [h p hp]
  · simp [hp]

theorem foldl_dictUpd_append :
    ∀ (ps : List (String × String)) (acc : List (String × String)),
      (ps.map Prod.fst).Nodup →
      (∀ p ∈ ps, ∀ q ∈ acc, ¬ q.1 = p.1) →
      List.foldl (fun d p => dictUpd d p.1 p.2) acc ps = acc ++ ps := by
  intro ps
  induction ps with
  | nil => intro acc _ _; simp
  | cons p ps ih =>
    intro acc hnd hfresh
    have hnd2 : p.1 ∉ ps.map Prod.fst ∧ (ps.map Prod.fst).Nodup := by
      rw [List.map_cons] at hnd
      exact List.nodup_cons.mp hnd
    simp only [List.foldl_cons]
    rw [dictUpd_fresh fun q hq => hfresh p (List.mem_cons_self p ps) q hq]
    rw [ih (acc ++ [(p.1, p.2)]) hnd2.2 ?fresh]
    · simp
    case fresh =>
      intro r hr q hq
      rcases List.mem_append.mp hq with hq | hq
      · exact hfresh r (List.mem_cons_of_mem p hr) q hq
      · have hqp : q = (p.1, p.2) := by simpa using hq
        subst hqp
        intro hcontra
        have hmem : r.1 ∈ ps.map Prod.fst := List.mem_map_of_mem Prod.fst hr
        rw [← hcontra] at hmem
        exact hnd2.1 hmem

theorem zip_map_fst_sublist :
    ∀ (ks vs : List String), ((ks.zip vs).map Prod.fst).Sublist ks := by
  intro ks
  induction ks with
  | nil => intro vs; simp
  | cons k ks ih =>
    intro vs
    cases vs with
    | nil => simp
    | cons v vs =>
      simpa using List.Sublist.cons₂ k (ih vs)

theorem dictZip_eq_zip {ks vs : List String} (h : ks.Nodup) :
    dictZip ks vs = ks.zip vs := by
  unfold dictZip
  rw [foldl_dictUpd_append (ks.zip vs) [] ((zip_map_fst_sublist ks vs).nodup h)
    (fun p _ q hq => absurd hq (List.not_mem_nil q))]
  simp

theorem mkRecord_keys {columns groups : List String} (hnd : columns.Nodup)
    (hlen : groups.length = columns.length) :
    (mkRecord columns groups).map Prod.fst = columns := by
  unfold mkRecord
  rw [dictZip_eq_zip hnd, List.map_map]
  exact List.map_fst_zip columns groups (Nat.le_of_eq hlen.symm)

theorem extractLines_skip {pattern : String → Option (List String)} {columns : List String}
    {l : String} {rest : List String}
    (h : pstrip l = "" ∨ pattern (pstrip l) = none) :
    extractLines pattern columns (l :: rest) = extractLines pattern columns rest := by
  by_cases he : pstrip l = ""
  · simp only [extractLines, if_pos he]
  · have hn : pattern (pstrip l) = none := h.resolve_left he
    simp only [extractLines, if_neg he, hn]

theorem extractLines_emit {pattern : String → Option (List String)} {columns : List String}
    {l : String} {rest : List String} {gs : List String}
    (he : ¬ pstrip l = "") (h : pattern (pstrip l) = some gs) :
    extractLines pattern columns (l :: rest) =
      mkRecord columns gs :: extractLines pattern columns rest := by
  simp only [extractLines, if_neg he, h]

theorem extractLines_mem {pattern : String → Option (List String)} {columns : List String} :
    ∀ {lines : List String} {r : List (String × String)},
      r ∈ extractLines pattern columns lines →
      ∃ s gs, pattern s = some gs ∧ r = mkRecord columns gs := by
  intro lines
  induction lines with
  | nil => intro r h; simp [extractLines] at h
  | cons l rest ih =>
    intro r h
    by_cases he : pstrip l = ""
    · rw [extractLines_skip (Or.inl he)] at h
      exact ih h
    · cases hp : pattern (pstrip l) with
      | some gs =>
        rw [extractLines_emit he hp] at h
        rcases List.mem_cons.mp h with h1 | h1
        · exact ⟨pstrip l, gs, hp, h1⟩
        · exact ih h1
      | none =>
        rw [extractLines_skip (Or.inr hp)] at h
        exact ih h

/-! ### Claim theorems -/

/-- C1 (amended): when an unexpected exception interrupts line iteration,
`parse_chat_with_pattern` does not discard the records accumulated before
the failure point — it returns exactly the records a successful parse of
the already-read prefix would produce, because the generic exception
handler falls through to `return parsed_data`. -/
theorem c1_failAfter_returns_prefix_records (lines : List String)
    (pattern : String → Option (List String)) (columns : List String) :
    parse_chat_with_pattern (ReadOutcome.failAfter lines) pattern columns =
      parse_chat_with_pattern (ReadOutcome.ok lines) pattern columns := rfl

/-- C1 (counterexample): a call that fails after reading one matching line
returns a non-empty partial record sequence, contradicting the claim that
all accumulated Records are discarded and extract never returns a partial
sequence for a failed call. -/
theorem c1_counterexample :
    parse_chat_with_pattern (ReadOutcome.failAfter ["10/5/23, 14:02 - Alice: Hello"])
        (matchToks cand_date_time_dash.capture) cand_date_time_dash.cols =
      [[("Date", "10/5/23"), ("Time", "14:02"), ("User", "Alice"), ("Message", "Hello")]] ∧
    ¬ ([[("Date", "10/5/23"), ("Time", "14:02"), ("User", "Alice"), ("Message", "Hello")]] =
        ([] : List (List (String × String)))) := by decide

/-- C2 (amended): an unreadable input and an input on which every candidate
is rejected both make `auto_generate_pattern` return the same value
`(None, None)`; the two outcomes are not distinguishable by the caller from
the returned value (the code only reports the difference by printing). -/
theorem c2_unreadable_indistinguishable (n : Nat) :
    auto_generate_pattern none n = (none, none) ∧
    auto_generate_pattern (some ["%%%"]) n = (none, none) := by
  refine ⟨rfl, ?_⟩
  cases n with
  | zero => rfl
  | succ n =>
    have h1 : readSample ["%%%"] (n + 1) = ["%%%"] := by
      simp only [readSample, readSample_nil n]
      decide
    simp only [auto_generate_pattern, h1]
    decide

/-- C2 (counterexample): at concrete inputs, the unreadable-input outcome
equals the all-candidates-exhausted outcome, so the caller cannot
distinguish an `InputUnreadable` condition from a `NoFormatFound` one. -/
theorem c2_counterexample :
    auto_generate_pattern none 20 = auto_generate_pattern (some ["%%%"]) 20 ∧
    auto_generate_pattern none 20 = (none, none) := by decide

/-- C4: the acceptance threshold is strict: a candidate whose capture
expression matches exactly 18 of 20 sample lines (ratio exactly 0.9) is not
accepted, and inference continues with the next candidate in priority
order. -/
theorem c4_ninety_percent_rejected (c : CandidateFormat) (rest : List CandidateFormat)
    (sample_lines : List String) (h20 : sample_lines.length = 20)
    (h18 : (sample_lines.filter fun l => (matchToks c.capture l).isSome).length = 18) :
    acceptsB c sample_lines = false ∧
      inferLoop (c :: rest) sample_lines = inferLoop rest sample_lines := by
  have hacc : acceptsB c sample_lines = false := by
    unfold acceptsB
    rw [h18, h20]
    simp
  exact ⟨hacc, inferLoop_skip hacc⟩

/-- C4 (witness): a concrete sample of 20 lines of which exactly 18 match
the `timestamp_dash_user` capture expression is rejected and, that candidate
being the last, inference ends with no format. -/
theorem c4_witness :
    inferLoop [cand_timestamp_dash] (List.replicate 18 "a - b: c" ++ ["%", "%"]) = (none, none) :=
  (c4_ninety_percent_rejected cand_timestamp_dash []
    (List.replicate 18 "a - b: c" ++ ["%", "%"]) (by decide) (by decide)).2

/-- C5 (amended): for a sample of size 1, a candidate that is actually
considered (its shape test matches the line) is accepted by the loop if and
only if the single line matches its capture expression; without the shape
test passing or with an earlier acceptable candidate, a matching capture
expression alone does not make inference accept the candidate. -/
theorem c5_singleton_accept_iff (c : CandidateFormat) (l : String)
    (hshape : (matchToks c.test l).isSome = true) :
    inferLoop [c] [l] = (some c.capture, some c.cols) ↔
      (matchToks c.capture l).isSome = true := by
  constructor
  · intro h
    by_contra hc
    have hc0 : (matchToks c.capture l).isSome = false := by
      cases hval : (matchToks c.capture l).isSome
      · rfl
      · exact absurd hval hc
    have hfil : ([l].filter fun s => (matchToks c.capture s).isSome) = [] := by
      simp [List.filter, hc0]
    have hskip : inferLoop [c] [l] = (none, none) := by
      simp only [inferLoop, List.headD, hshape, if_true, hfil]
      norm_num
    rw [hskip] at h
    simp at h
  · intro h
    have hfil : ([l].filter fun s => (matchToks c.capture s).isSome) = [l] := by
      simp [List.filter, h]
    simp only [inferLoop, List.headD, hshape, if_true, hfil]
    norm_num

/-- C5 (witness): the single line `a - b: c` matches both the shape test
and the capture expression of `timestamp_dash_user`, so that candidate is
accepted. -/
theorem c5_witness :
    inferLoop [cand_timestamp_dash] ["a - b: c"] =
      (some cand_timestamp_dash.capture, some cand_timestamp_dash.cols) :=
  (c5_singleton_accept_iff cand_timestamp_dash "a - b: c" (by decide)).mpr (by decide)

/-- C5 (counterexample): the single line `foo, bar - Alice: hi` fully
matches the capture expression of `date_time_dash_user`, yet inference does
not accept that candidate (its shape test fails on the line); it accepts
`timestamp_dash_user` instead.  This refutes the unconditional
accepted-iff-capture-matches reading for samples of size 1. -/
theorem c5_counterexample :
    (matchToks cand_date_time_dash.capture "foo, bar - Alice: hi").isSome = true ∧
    auto_generate_pattern (some ["foo, bar - Alice: hi"]) 1 =
      (some cand_timestamp_dash.capture, some cand_timestamp_dash.cols) ∧
    ¬ (some cand_timestamp_dash.capture = some cand_date_time_dash.capture) := by decide

/-- C10: `auto_generate_pattern` is total on all modelled inputs (read
failures included) and all-or-nothing: it returns either `(none, none)` or
a pair in which both the capture pattern and the column list are present;
never one without the other. -/
theorem c10_all_or_nothing (input : Option (List String)) (n : Nat) :
    auto_generate_pattern input n = (none, none) ∨
      ∃ p cols, auto_generate_pattern input n = (some p, some cols) := by
  cases input with
  | none => left; rfl
  | some lines =>
    simp only [auto_generate_pattern]
    by_cases h : readSample lines n = []
    · simp [h]
    · simp only [if_neg h]
      exact inferLoop_none_or_pair patterns_to_try (readSample lines n)

/-- C3 (amended): for the 20-line sample in the
`10/5/23, 14:02 - Alice: Hello there` layout, inference selects the second
candidate `date_time_dash_user` (whose shape test matches this layout), and
extraction over the full file returns one Record per line — 20 records —
each with the fields `Date`, `Time`, `User`, `Message` populated and
whitespace-trimmed. -/
theorem c3_datetime_layout_selected :
    auto_generate_pattern (some chat_file_20) 20 =
      (some cand_date_time_dash.capture, some cand_date_time_dash.cols) ∧
    (parse_chat_with_pattern (ReadOutcome.ok chat_file_20)
        (matchToks cand_date_time_dash.capture) cand_date_time_dash.cols).length = 20 ∧
    (parse_chat_with_pattern (ReadOutcome.ok chat_file_20)
        (matchToks cand_date_time_dash.capture) cand_date_time_dash.cols).all
      (fun r => r.map Prod.fst == ["Date", "Time", "User", "Message"] &&
        r.all fun p => pstrip p.2 == p.2) = true := by decide

/-- C3 (counterexample): on the 20-line `10/5/23, 14:02 - Alice: ...` file
the selected column list is `Date, Time, User, Message`, not the
`Timestamp, User, Message` column list the claim names. -/
theorem c3_counterexample :
    (auto_generate_pattern (some chat_file_20) 20).2 =
      some ["Date", "Time", "User", "Message"] ∧
    ¬ ((auto_generate_pattern (some chat_file_20) 20).2 =
      some ["Timestamp", "User", "Message"]) := by decide

/-- C6: candidates are tried in fixed priority order: if the candidates at
positions `i < j` both satisfy the acceptance condition on the sample and
no candidate before position `i` does, inference returns the earlier,
stricter candidate at position `i`, not the more permissive later one. -/
theorem c6_priority_order (cands : List CandidateFormat) (sample_lines : List String)
    (i j : Nat) (ci cj : CandidateFormat) (hij : i < j)
    (hi : cands.get? i = some ci) (hj : cands.get? j = some cj)
    (hacci : acceptsB ci sample_lines = true) (haccj : acceptsB cj sample_lines = true)
    (hmin : ∀ c0 ∈ cands.take i, acceptsB c0 sample_lines = false) :
    inferLoop cands sample_lines = (some ci.capture, some ci.cols) := by
  induction i generalizing cands j with
  | zero =>
    cases cands with
    | nil => simp at hi
    | cons c rest =>
      have hc : c = ci := by simpa using hi
      subst hc
      exact inferLoop_accept hacci
  | succ i ih =>
    cases cands with
    | nil => simp at hi
    | cons c rest =>
      have hc : acceptsB c sample_lines = false :=
        hmin c (by simp [List.take_succ_cons])
      rw [inferLoop_skip hc]
      cases j with
      | zero => omega
      | succ j =>
        exact ih rest j (Nat.lt_of_succ_lt_succ hij) (by simpa using hi) (by simpa using hj)
          (fun c0 hc0 => hmin c0 (by simp [List.take_succ_cons, hc0]))

/-- C6 (witness): the line `[10:00] Alice - Bob: hi` satisfies the
acceptance condition of both the stricter `bracket_timestamp_user`
(position 2) and the more permissive `timestamp_dash_user` (position 3),
and inference selects the stricter one. -/
theorem c6_witness :
    inferLoop patterns_to_try ["[10:00] Alice - Bob: hi"] =
      (some cand_bracket_timestamp.capture, some cand_bracket_timestamp.cols) :=
  c6_priority_order patterns_to_try ["[10:00] Alice - Bob: hi"] 2 3
    cand_bracket_timestamp cand_timestamp_dash (by decide) (by decide) (by decide)
    (by decide) (by decide) (by decide)

/-- C7: if the capture expression matches (the stripped) lines 1, 3 and 5
of a five-line file but not lines 2 and 4 (which are non-matching or
empty), extraction returns exactly three Records, those of lines 1, 3, 5 in
input order; the skipped lines produce no record and no error. -/
theorem c7_skip_nonmatching (pattern : String → Option (List String)) (columns : List String)
    (l1 l2 l3 l4 l5 : String) (g1 g3 g5 : List String)
    (h1e : ¬ pstrip l1 = "") (h1 : pattern (pstrip l1) = some g1)
    (h2 : pstrip l2 = "" ∨ pattern (pstrip l2) = none)
    (h3e : ¬ pstrip l3 = "") (h3 : pattern (pstrip l3) = some g3)
    (h4 : pstrip l4 = "" ∨ pattern (pstrip l4) = none)
    (h5e : ¬ pstrip l5 = "") (h5 : pattern (pstrip l5) = some g5) :
    parse_chat_with_pattern (ReadOutcome.ok [l1, l2, l3, l4, l5]) pattern columns =
      [mkRecord columns g1, mkRecord columns g3, mkRecord columns g5] := by
  show extractLines pattern columns [l1, l2, l3, l4, l5] = _
  rw [extractLines_emit h1e h1, extractLines_skip h2, extractLines_emit h3e h3,
    extractLines_skip h4, extractLines_emit h5e h5]
  rfl

/-- C7 (witness): a concrete five-line file for `bracket_timestamp_user`
with a noise line in position 2 and an empty line in position 4 yields
exactly the records of lines 1, 3 and 5. -/
theorem c7_witness :
    parse_chat_with_pattern (ReadOutcome.ok ["[1] a: x", "noise", "[2] b: y", "", "[3] c: z"])
        (matchToks cand_bracket_timestamp.capture) cand_bracket_timestamp.cols =
      [mkRecord cand_bracket_timestamp.cols ["1", "a", "x"],
        mkRecord cand_bracket_timestamp.cols ["2", "b", "y"],
        mkRecord cand_bracket_timestamp.cols ["3", "c", "z"]] :=
  c7_skip_nonmatching (matchToks cand_bracket_timestamp.capture) cand_bracket_timestamp.cols
    "[1] a: x" "noise" "[2] b: y" "" "[3] c: z" ["1", "a", "x"] ["2", "b", "y"] ["3", "c", "z"]
    (by decide) (by decide) (Or.inr (by decide)) (by decide) (by decide)
    (Or.inl (by decide)) (by decide) (by decide)

/-- C8: the sample is built by reading at most `lines_to_sample` physical
lines from the start of the input, stripping each and discarding empties;
and when the first `lines_to_sample` physical lines all strip to empty — in
particular for an entirely empty or whitespace-only input —
`auto_generate_pattern` returns the not-found value `(none, none)`. -/
theorem c8_sample_construction (lines : List String) (n : Nat) :
    readSample lines n = (((lines.take n).map pstrip).filter fun s => !(s == "")) ∧
    ((∀ l ∈ lines.take n, pstrip l = "") →
      auto_generate_pattern (some lines) n = (none, none)) := by
  refine ⟨readSample_eq lines n, fun hall => ?_⟩
  have hempty : readSample lines n = [] := by
    rw [readSample_eq]
    simp only [List.filter_eq_nil_iff]
    intro s hs
    simp only [List.mem_map] at hs
    obtain ⟨l, hl, rfl⟩ := hs
    simp [hall l hl]
  simp [auto_generate_pattern, hempty]

/-- C8 (witness): an input whose lines are all empty or whitespace-only
yields `(none, none)`. -/
theorem c8_witness : auto_generate_pattern (some ["", "   "]) 5 = (none, none) :=
  (c8_sample_construction ["", "   "] 5).2 (by decide)

/-- C9: for every candidate format in the fixed table the number of field
names equals the number of capture groups of its capture expression, and
consequently every Record emitted by extraction with a built-in format
carries exactly that format's fields, in order — no Record is partially
populated. -/
theorem c9_arity_invariant (c : CandidateFormat) (hc : c ∈ patterns_to_try) :
    numCaps c.capture = c.cols.length ∧
    ∀ (input : ReadOutcome) (r : List (String × String)),
      r ∈ parse_chat_with_pattern input (matchToks c.capture) c.cols →
      r.map Prod.fst = c.cols := by
  have harity : numCaps c.capture = c.cols.length := by
    fin_cases hc <;> decide
  have hnd : c.cols.Nodup := by
    fin_cases hc <;> decide
  refine ⟨harity, fun input r hr => ?_⟩
  cases input with
  | openFail => simp [parse_chat_with_pattern] at hr
  | ok lines =>
    simp only [parse_chat_with_pattern] at hr
    obtain ⟨s, gs, hp, hrec⟩ := extractLines_mem hr
    subst hrec
    exact mkRecord_keys hnd ((matchToks_length hp).trans harity)
  | failAfter lines =>
    simp only [parse_chat_with_pattern] at hr
    obtain ⟨s, gs, hp, hrec⟩ := extractLines_mem hr
    subst hrec
    exact mkRecord_keys hnd ((matchToks_length hp).trans harity)

/-- C9 (witness): a concrete record extracted with `date_time_dash_user`
has exactly the fields `Date`, `Time`, `User`, `Message`, in order. -/
theorem c9_witness :
    [("Date", "1/2/23"), ("Time", "3:04"), ("User", "Bo"), ("Message", "yo")].map Prod.fst =
      cand_date_time_dash.cols :=
  (c9_arity_invariant cand_date_time_dash (by decide)).2
    (ReadOutcome.ok ["1/2/23, 3:04 - Bo: yo"])
    [("Date", "1/2/23"), ("Time", "3:04"), ("User", "Bo"), ("Message", "yo")]
    (by decide)

end ChatScribe
